import Mathlib

/-!
Verification of the orphaned-UPC audit, reconciliation and cross-store
comparison engine of the GlobalUPC backend (`backend/mssql_helper.py` and
`backend/main.py`).

The Python code is shallowly embedded: each relevant routine becomes an
executable Lean function over explicit snapshots of the database tables
(lists of rows, given in primary-key order, which is the `ROW_NUMBER() OVER
(ORDER BY pk)` order the queries impose).  SQL queries are modelled by their
semantics on those snapshots; fallible queries are modelled with `Except` or
with outcome oracles, mirroring exactly which exceptions the Python code
catches where.
-/

namespace GlobalUPC

/-! ## String model

Python `str.strip()` removes leading and trailing whitespace.  `String.trim`
exists in Lean but does not reduce in the kernel, so we define the same
operation directly on the character list underlying the string. -/

/-- Whitespace characters removed by Python `str.strip()` (the ASCII ones,
which is what UPC data can contain). -/
def isPyWS (c : Char) : Bool :=
  c = ' ' || c = '\t' || c = '\n' || c = '\r' || c = '\x0b' || c = '\x0c'

/-- Python `s.strip()`: drop whitespace from both ends. -/
def pyStrip (s : String) : String :=
  ⟨((s.data.dropWhile isPyWS).reverse.dropWhile isPyWS).reverse⟩

/-- Python `str(upc).strip() if upc else ''` applied to a nullable SQL
string: a `None` or empty value normalizes to `""`, anything else is
stripped (`mssql_helper.py:690`). -/
def normUpc (u : Option String) : String :=
  if u.getD "" = "" then "" else pyStrip (u.getD "")

/-- Python `x if x else default` for a nullable string field: `None` and
`""` fall back to the default (used for the `"Unknown"` description
sentinel and the category-name fallbacks). -/
def strOrDefault (u : Option String) (dflt : String) : String :=
  if u.getD "" = "" then dflt else u.getD ""

/-! ## Configuration constants -/

/-- `CHUNK_SIZE` (`mssql_helper.py:8`). -/
def CHUNK_SIZE : Nat := 5000

/-- `MAX_PARAMS_PER_QUERY` (`mssql_helper.py:702`, `1988`). -/
def MAX_PARAMS_PER_QUERY : Nat := 2000

/-- `BATCH_SIZE` of the reconciliation matchers (`mssql_helper.py:1209`,
`1345`). -/
def BATCH_SIZE : Nat := 500

/-- `BATCH_SIZE` of the update batching wrapper (`main.py:1642`). -/
def UPDATE_BATCH_SIZE : Nat := 20

/-! ## Chunk planner

`_audit_orphaned_upcs_sync`, `_process_tables_cross_db` and
`compare_stores_sync` all plan chunks the same way (`mssql_helper.py:642`,
`1002`, `1910`): `total_chunks = max(1, (total_records + CHUNK_SIZE - 1) //
CHUNK_SIZE)`, and chunk `i` selects the 1-based row numbers `r` with
`i*CHUNK_SIZE < r ≤ i*CHUNK_SIZE + CHUNK_SIZE`
(`WHERE n.row_num > ? AND n.row_num <= ?`). -/

/-- Number of chunks planned for `totalRecords` rows:
`max(1, (total_records + chunk_size - 1) // chunk_size)`. -/
def totalChunksOf (totalRecords chunkSize : Nat) : Nat :=
  max 1 ((totalRecords + chunkSize - 1) / chunkSize)

/-- Row number `r` is selected by chunk `i`: the SQL window filter
`row_num > i*chunkSize AND row_num <= i*chunkSize + chunkSize`. -/
def inWindow (i chunkSize r : Nat) : Prop :=
  i * chunkSize < r ∧ r ≤ i * chunkSize + chunkSize

instance (i c r : Nat) : Decidable (inWindow i c r) := by
  unfold inWindow; infer_instance

/-- Chunk `i` of an ordered row list: the rows whose 1-based row number is
in chunk `i`'s window, i.e. elements `i*chunkSize .. i*chunkSize +
chunkSize - 1` of the zero-based list. -/
def windowOf (l : List α) (chunkSize i : Nat) : List α :=
  (l.drop (i * chunkSize)).take chunkSize

/-! ## Batched slicing and the existence prober

`for batch_start in range(0, len(chunk_upcs), MAX_PARAMS_PER_QUERY)` slices
the input list mechanically (`mssql_helper.py:708-717`, `1995-2005`); each
slice is sent as one `SELECT ProductUPC FROM Items_tbl WHERE ProductUPC IN
(...)` query against the target catalog, the returned values are stripped
(`row[0].strip() if row[0] else ''`), and the per-batch result sets are
unioned into the Python set `existing_upcs`. -/

/-- Mechanical slicing of a list into consecutive slices of at most `n`
elements, exactly as `range(0, len(l), n)` slicing does. -/
def sliceBatches (n : Nat) (l : List α) : List (List α) :=
  (List.range ((l.length + n - 1) / n)).map (fun i => (l.drop (i * n)).take n)

/-- One `WHERE ProductUPC IN (batch)` membership query against the target
catalog snapshot (the list of non-null `ProductUPC` values of the target
`Items_tbl`), with the Python-side strip of each returned value.
Result is a set, as in the Python code. -/
def probeBatchQuery (target : List String) (batch : List String) : Finset String :=
  ((target.filter (fun t => batch.contains t)).map pyStrip).toFinset

/-- The batched existence probe: slice the UPC list into batches of at most
`MAX_PARAMS_PER_QUERY`, query each batch, union the results
(`mssql_helper.py:700-719`). -/
def probeExistence (target : List String) (upcs : List String) : Finset String :=
  (sliceBatches MAX_PARAMS_PER_QUERY upcs).foldl
    (fun acc batch => acc ∪ probeBatchQuery target batch) ∅

/-- Modelled from the spec: the hypothetical unbounded single membership
query over the whole UPC list, which the spec compares the batched probe
against (the parameter ceiling is what forces batching; this definition
ignores it and issues one query). -/
def probeExistenceUnbounded (target : List String) (upcs : List String) : Finset String :=
  probeBatchQuery target upcs

/-! ## Row and record model for the orphan audit -/

/-- One row of a detail table as selected by the audit queries:
`pk, ProductID, description, ProductUPC` (`mssql_helper.py:669`, `1032`).
`ProductID` and the description and UPC columns are nullable. -/
structure DetailRow where
  pk : Nat
  productId : Option Nat
  description : Option String
  upc : Option String
deriving Repr, DecidableEq

/-- An orphan record as built by both audit modes
(`mssql_helper.py:728-734`, `1054-1060`). -/
structure OrphanRecord where
  tableName : String
  primaryKey : Nat
  upc : String
  productId : Option Nat
  description : String
deriving Repr, DecidableEq

/-- SQL eligibility filter of every audit query:
`ProductUPC IS NOT NULL AND ProductUPC != ''`. -/
def eligRow (r : DetailRow) : Bool :=
  r.upc.getD "" != ""

/-- Python `description if description else "Unknown"`. -/
def descOrUnknown (d : Option String) : String :=
  strOrDefault d "Unknown"

/-! ## Same-database audit mode

`_audit_orphaned_upcs_sync`, same-database branch
(`mssql_helper.py:913-1099`).  The chunk query returns the window's rows
LEFT-JOINed to `Items_tbl` on raw `ProductUPC` equality and keeps the rows
with no catalog match (`i.ProductUPC IS NULL`); each such row becomes one
orphan record carrying its own pk, product id and description. -/

/-- Orphans of one window of rows in same-database mode: the rows whose raw
`ProductUPC` has no equal value in the catalog snapshot. -/
def sameDbChunkOrphans (tableName : String) (wnd : List DetailRow)
    (target : List String) : List OrphanRecord :=
  (wnd.filter (fun r => !(target.contains (r.upc.getD "")))).map (fun r =>
    { tableName := tableName, primaryKey := r.pk, upc := r.upc.getD "",
      productId := r.productId, description := descOrUnknown r.description })

/-- Same-database processing of one table: count the eligible rows, return
no orphans when zero, otherwise process the planned chunks in order
(`mssql_helper.py:976-1078`). -/
def sameDbTableOrphans (tableName : String) (rows : List DetailRow)
    (target : List String) (chunkSize : Nat) : List OrphanRecord :=
  let elig := rows.filter eligRow
  if elig.length = 0 then []
  else
    ((List.range (totalChunksOf elig.length chunkSize)).map
      (fun i => sameDbChunkOrphans tableName (windowOf elig chunkSize i) target)).flatten

/-- Same-database processing of a list of tables (each a name with its
detail-row snapshot): accumulate the orphan records and count each
processed table (`mssql_helper.py:916-1097`, no-failure snapshot view). -/
def process_tables_same_db (tables : List (String × List DetailRow))
    (target : List String) (chunkSize : Nat) : List OrphanRecord × Nat :=
  tables.foldl
    (fun st t => (st.1 ++ sameDbTableOrphans t.1 t.2 target chunkSize, st.2 + 1))
    ([], 0)

/-! ## Cross-database audit mode

`_process_tables_cross_db` (`mssql_helper.py:530-776`).  The chunk query
returns the window's raw rows; the UPCs are normalized with `strip`, a
`records_map` dict keeps the **most recently seen** row per normalized UPC,
the batched existence probe is run against the target catalog, and one
orphan record is appended per occurrence of each UPC not found, looked up
through `records_map`. -/

/-- The `chunk_upcs` list of one window: normalized UPCs of the window's
rows, in row order, dropping values that normalize to `""`
(`mssql_helper.py:684-693`). -/
def crossDbChunkUpcs (wnd : List DetailRow) : List String :=
  wnd.filterMap (fun r => if normUpc r.upc = "" then none else some (normUpc r.upc))

/-- `records_map[u]`: the dict write `records_map[normalized_upc] = {...}`
retains the last row of the window with normalized UPC `u`
(`mssql_helper.py:694-698`). -/
def recordsMapLast (wnd : List DetailRow) (u : String) : Option DetailRow :=
  (wnd.filter (fun r => normUpc r.upc == u)).getLast?

/-- Orphans of one window of rows in cross-database mode
(`mssql_helper.py:700-737`): probe the normalized UPCs against the target,
then for each occurrence of a UPC not in the probe result append a record
built from `records_map[upc]`. -/
def crossDbChunkOrphans (tableName : String) (wnd : List DetailRow)
    (target : List String) : List OrphanRecord :=
  let chunkUpcs := crossDbChunkUpcs wnd
  let existing := probeExistence target chunkUpcs
  (chunkUpcs.filter (fun u => decide (u ∉ existing))).filterMap (fun u =>
    (recordsMapLast wnd u).map (fun r =>
      { tableName := tableName, primaryKey := r.pk, upc := u,
        productId := r.productId, description := descOrUnknown r.description }))

/-- Cross-database processing of one table (`mssql_helper.py:617-757`). -/
def crossDbTableOrphans (tableName : String) (rows : List DetailRow)
    (target : List String) (chunkSize : Nat) : List OrphanRecord :=
  let elig := rows.filter eligRow
  if elig.length = 0 then []
  else
    ((List.range (totalChunksOf elig.length chunkSize)).map
      (fun i => crossDbChunkOrphans tableName (windowOf elig chunkSize i) target)).flatten

/-- Cross-database processing of a list of tables
(`mssql_helper.py:557-776`, no-failure snapshot view). -/
def process_tables_cross_db (tables : List (String × List DetailRow))
    (target : List String) (chunkSize : Nat) : List OrphanRecord × Nat :=
  tables.foldl
    (fun st t => (st.1 ++ crossDbTableOrphans t.1 t.2 target chunkSize, st.2 + 1))
    ([], 0)

/-! ## Failure model of the per-table scan

For claim C4 the queries of one table are an oracle that may raise: the
count query and each chunk's window query return `Except String _` where
`.error e` stands for a raised `pyodbc.Error` with message `e` (of any
kind: missing table, timeout, syntax error — `pyodbc.Error` is the base
class of all of them and the code catches it wholesale,
`mssql_helper.py:767`, `1090`). -/

/-- Query oracle for one table. -/
structure TableQueries where
  countResult : Except String Nat
  chunkRows : Nat → Except String (List DetailRow)

/-- The chunk loop of the same-database branch: orphan records accumulate
into the shared result list chunk by chunk; the first raised error aborts
the loop, keeping what was already accumulated
(`mssql_helper.py:1013-1078`). -/
def runChunksFrom (q : TableQueries) (tableName : String) (target : List String)
    (acc : List OrphanRecord) : List Nat → List OrphanRecord × Option String
  | [] => (acc, none)
  | i :: rest =>
    match q.chunkRows i with
    | .error e => (acc, some e)
    | .ok rows =>
        runChunksFrom q tableName target
          (acc ++ sameDbChunkOrphans tableName rows target) rest

/-- One table of the same-database audit under the failure model:
count query, zero-rows short circuit, then the chunk loop
(`mssql_helper.py:976-1078`). -/
def runTableChunks (tableName : String) (q : TableQueries)
    (target : List String) (chunkSize : Nat) : List OrphanRecord × Option String :=
  match q.countResult with
  | .error e => ([], some e)
  | .ok total =>
    if total = 0 then ([], none)
    else runChunksFrom q tableName target [] (List.range (totalChunksOf total chunkSize))

/-- The table loop of `_audit_orphaned_upcs_sync` with its
`except pyodbc.Error: ... continue` handler: ANY query error inside a
table's processing makes that table count as skipped; the partially
accumulated orphan records stay in the shared list, later tables still
run, and the function returns `(True, None, records, tables_checked)` —
the error message is dropped (`mssql_helper.py:916-1101`).
Result: `(success, error, orphanedRecords, tablesChecked, skippedTables)`. -/
def audit_tables_same_db (tables : List (String × TableQueries))
    (target : List String) (chunkSize : Nat) :
    Bool × Option String × List OrphanRecord × Nat × List String :=
  let st := tables.foldl
    (fun (st : List OrphanRecord × Nat × List String) t =>
      let res := runTableChunks t.1 t.2 target chunkSize
      match res.2 with
      | none => (st.1 ++ res.1, st.2.1 + 1, st.2.2)
      | some _ => (st.1 ++ res.1, st.2.1, st.2.2 ++ [t.1]))
    ([], 0, [])
  (true, none, st.1, st.2.1, st.2.2)

/-! ## Batched updater

`update_orphaned_upcs_sync` (`mssql_helper.py:1443-1530`) and the batching
wrapper `update_with_batching_wrapper` (`main.py:1638-1705`).  The per-row
`UPDATE` execution and the per-call connection opening are oracles:
`rowOutcome u = some e` stands for `cursor.execute` raising
`pyodbc.Error(e)` on that row, `connOutcome = some e` for
`pyodbc.connect` failing for the whole call. -/

/-- One update request (`table_name`, `primary_key`, `items_tbl_upc`). -/
structure UpdateSpec where
  tableName : String
  primaryKey : Nat
  itemsTblUpc : String
deriving Repr, DecidableEq

/-- One per-row update result (`mssql_helper.py:1506-1520`). -/
structure UpdateResult where
  tableName : String
  primaryKey : Nat
  success : Bool
  updatedUpc : Option String
  error : Option String
deriving Repr, DecidableEq

/-- The three-way primary-key-column branch (`mssql_helper.py:1488-1493`). -/
def pkFieldFor (tableName : String) : String :=
  if tableName = "Items_tbl" then "ProductID"
  else if tableName = "QuotationDetails" then "id"
  else "LineID"

/-- One iteration of the per-row update loop: execute the single-row
`UPDATE` (outcome given by the oracle) and record success or the caught
per-row `pyodbc.Error` (`mssql_helper.py:1482-1520`). -/
def singleUpdateResult (rowOutcome : UpdateSpec → Option String)
    (u : UpdateSpec) : UpdateResult :=
  match rowOutcome u with
  | none =>
      { tableName := u.tableName, primaryKey := u.primaryKey, success := true,
        updatedUpc := some u.itemsTblUpc, error := none }
  | some e =>
      { tableName := u.tableName, primaryKey := u.primaryKey, success := false,
        updatedUpc := none, error := some e }

/-- `update_orphaned_upcs_sync`: open the connection (oracle), then run the
per-row loop, appending one result per update; a connection-level failure
returns `(False, error, [])` (`mssql_helper.py:1467-1530`). -/
def update_orphaned_upcs_sync (updates : List UpdateSpec)
    (connOutcome : Option String) (rowOutcome : UpdateSpec → Option String) :
    Bool × Option String × List UpdateResult :=
  match connOutcome with
  | some e => (false, some e, [])
  | none =>
      (true, none,
        updates.foldl (fun acc u => acc ++ [singleUpdateResult rowOutcome u]) [])

/-- Progress events of the batching wrapper (`main.py:1657-1703`). -/
inductive UpdateEvent where
  | updatingBatch (batchNumber totalBatches batchSize : Nat)
  | batchComplete (batchNumber totalBatches batchUpdated batchFailed
      totalUpdated totalFailed : Nat)
deriving Repr, DecidableEq

/-- The failed-row result built when a whole sub-batch's call fails:
`error or "Batch update failed"` (`main.py:1677-1684`). -/
def failedRowResult (err : Option String) (u : UpdateSpec) : UpdateResult :=
  { tableName := u.tableName, primaryKey := u.primaryKey, success := false,
    updatedUpc := none,
    error := some (if err.getD "" = "" then "Batch update failed" else err.getD "") }

/-- `update_with_batching_wrapper` (`main.py:1638-1705`): partition the
updates into sub-batches of `UPDATE_BATCH_SIZE`, call
`update_orphaned_upcs_sync` per sub-batch, and emit an `updating_batch` and
a `batch_complete` event per sub-batch.  On a failed call the per-row loop
appends one failed result per row of the sub-batch AND adds `len(batch)` to
`total_failed` on every iteration — a faithful translation of the
mis-indented `total_failed += len(batch)` at `main.py:1685`.
Result: `((success, error, results), events)`. -/
def update_with_batching_wrapper (updates : List UpdateSpec)
    (connOutcome : Nat → Option String) (rowOutcome : UpdateSpec → Option String) :
    (Bool × Option String × List UpdateResult) × List UpdateEvent :=
  let totalBatches := (updates.length + UPDATE_BATCH_SIZE - 1) / UPDATE_BATCH_SIZE
  let st := (List.range totalBatches).foldl
    (fun (st : List UpdateResult × Nat × Nat × List UpdateEvent) batchNum =>
      let batch := (updates.drop (batchNum * UPDATE_BATCH_SIZE)).take UPDATE_BATCH_SIZE
      let events1 := st.2.2.2 ++
        [UpdateEvent.updatingBatch (batchNum + 1) totalBatches batch.length]
      match update_orphaned_upcs_sync batch (connOutcome batchNum) rowOutcome with
      | (false, err, _) =>
        let p := batch.foldl
          (fun (p : List UpdateResult × Nat) u =>
            (p.1 ++ [failedRowResult err u], p.2 + batch.length))
          (st.1, st.2.2.1)
        (p.1, st.2.1, p.2,
          events1 ++ [UpdateEvent.batchComplete (batchNum + 1) totalBatches
            0 batch.length st.2.1 p.2])
      | (true, _, batchResults) =>
        let batchUpdated := (batchResults.filter (fun r => r.success)).length
        let batchFailed := (batchResults.filter (fun r => !r.success)).length
        (st.1 ++ batchResults, st.2.1 + batchUpdated, st.2.2.1 + batchFailed,
          events1 ++ [UpdateEvent.batchComplete (batchNum + 1) totalBatches
            batchUpdated batchFailed (st.2.1 + batchUpdated) (st.2.2.1 + batchFailed)]))
    ([], 0, 0, [])
  ((true, none, st.1), st.2.2.2)

/-! ## Reconciliation matchers

`find_matches_by_product_id_sync` (`mssql_helper.py:1170-1305`) and
`find_matches_by_description_sync` (`mssql_helper.py:1307-1441`). -/

/-- One row of the catalog `Items_tbl` as seen by the matchers:
`ProductID` (the primary key), `ProductDescription`, `ProductUPC`. -/
structure CatalogItem where
  productId : Nat
  productDescription : Option String
  productUpc : Option String
deriving Repr, DecidableEq

/-- One reconciliation match entry (`mssql_helper.py:1232-1239`). -/
structure ReconciliationMatch where
  tableName : String
  primaryKey : Nat
  orphanedUpc : String
  matchFound : Bool
  itemsTblUpc : Option String
  matchFieldValue : String
deriving Repr, DecidableEq

/-- Python truthiness of a nullable string (`if row[1]`, `if items_upc`). -/
def upcTruthy (u : Option String) : Bool :=
  u.getD "" != ""

/-- The immediate no-match entry for a record without a usable key
(`mssql_helper.py:1231-1239`, `1367-1375`). -/
def noMatchNA (r : OrphanRecord) : ReconciliationMatch :=
  { tableName := r.tableName, primaryKey := r.primaryKey, orphanedUpc := r.upc,
    matchFound := false, itemsTblUpc := none, matchFieldValue := "N/A" }

/-- The batch query `SELECT ProductID, ProductUPC FROM Items_tbl WHERE
ProductID IN (pids)` (`mssql_helper.py:1247-1256`). -/
def pidQueryRows (catalog : List CatalogItem) (pids : List Nat) : List CatalogItem :=
  catalog.filter (fun c => pids.contains c.productId)

/-- `upc_lookup.get(pid)` where `upc_lookup = {row[0]: row[1] for row in
results if row[1]}`: dict insertion retains the last truthy-UPC row per
`ProductID` (`mssql_helper.py:1258-1264`). -/
def pidDictGet (rows : List CatalogItem) (pid : Nat) : Option String :=
  ((rows.filter (fun c => c.productId == pid && upcTruthy c.productUpc)).map
    (fun c => c.productUpc.getD "")).getLast?

/-- Resolution of one record against the lookup dict
(`mssql_helper.py:1223-1285`): a record with no `product_id` gets the
immediate `"N/A"` no-match; otherwise match on the dict value. -/
def pidMatchEntry (rows : List CatalogItem) (r : OrphanRecord) : ReconciliationMatch :=
  match r.productId with
  | none => noMatchNA r
  | some pid =>
    let u := pidDictGet rows pid
    if u.getD "" != "" then
      { tableName := r.tableName, primaryKey := r.primaryKey, orphanedUpc := r.upc,
        matchFound := true, itemsTblUpc := u, matchFieldValue := toString pid }
    else
      { tableName := r.tableName, primaryKey := r.primaryKey, orphanedUpc := r.upc,
        matchFound := false, itemsTblUpc := none, matchFieldValue := toString pid }

/-- `find_matches_by_product_id_sync` (`mssql_helper.py:1215-1299`):
batches of 500; each batch is partitioned into records without and with a
`product_id` (order preserved), the without-records get immediate `"N/A"`
entries, the with-records are resolved against the batch query's dict. -/
def find_matches_by_product_id_sync (records : List OrphanRecord)
    (catalog : List CatalogItem) : List ReconciliationMatch :=
  (sliceBatches BATCH_SIZE records).foldl
    (fun ms batch =>
      let withoutIds := batch.filter (fun r => r.productId.isNone)
      let withIds := batch.filter (fun r => r.productId.isSome)
      let rows := pidQueryRows catalog (withIds.filterMap (fun r => r.productId))
      ms ++ (withoutIds.map noMatchNA ++ withIds.map (pidMatchEntry rows)))
    []

/-- Description usability check: `if not description or description ==
"Unknown"` marks the record unusable (`mssql_helper.py:1360-1362`). -/
def descUsable (r : OrphanRecord) : Bool :=
  !(r.description == "" || r.description == "Unknown")

/-- The batch query `SELECT ProductDescription, ProductUPC FROM Items_tbl
WHERE ProductDescription IN (keys)` (`mssql_helper.py:1383-1392`); a NULL
description never matches an `IN` list. -/
def descQueryRows (catalog : List CatalogItem) (keys : List String) : List CatalogItem :=
  catalog.filter (fun c =>
    match c.productDescription with
    | some d => keys.contains d
    | none => false)

/-- `upc_lookup.get(description)` for the description strategy
(`mssql_helper.py:1394-1400`). -/
def descDictGet (rows : List CatalogItem) (d : String) : Option String :=
  ((rows.filter (fun c => c.productDescription == some d && upcTruthy c.productUpc)).map
    (fun c => c.productUpc.getD "")).getLast?

/-- Resolution of one record for the description strategy
(`mssql_helper.py:1359-1421`). -/
def descMatchEntry (rows : List CatalogItem) (r : OrphanRecord) : ReconciliationMatch :=
  if !descUsable r then noMatchNA r
  else
    let u := descDictGet rows r.description
    if u.getD "" != "" then
      { tableName := r.tableName, primaryKey := r.primaryKey, orphanedUpc := r.upc,
        matchFound := true, itemsTblUpc := u, matchFieldValue := r.description }
    else
      { tableName := r.tableName, primaryKey := r.primaryKey, orphanedUpc := r.upc,
        matchFound := false, itemsTblUpc := none, matchFieldValue := r.description }

/-- `find_matches_by_description_sync` (`mssql_helper.py:1351-1435`). -/
def find_matches_by_description_sync (records : List OrphanRecord)
    (catalog : List CatalogItem) : List ReconciliationMatch :=
  (sliceBatches BATCH_SIZE records).foldl
    (fun ms batch =>
      let without := batch.filter (fun r => !descUsable r)
      let withDesc := batch.filter descUsable
      let rows := descQueryRows catalog (withDesc.map (fun r => r.description))
      ms ++ (without.map noMatchNA ++ withDesc.map (descMatchEntry rows)))
    []

/-- The description keys the description strategy actually sends to the
catalog query, over all batches (`mssql_helper.py:1380`). -/
def descQueriedKeys (records : List OrphanRecord) : List String :=
  ((sliceBatches BATCH_SIZE records).map
    (fun batch => (batch.filter descUsable).map (fun r => r.description))).flatten

/-! ## Cross-store product diff

`compare_stores_sync` (`mssql_helper.py:1785-2054`). -/

/-- One row of the primary store's `Items_tbl` as selected by the
comparison queries. -/
structure ProductRow where
  productId : Nat
  upc : Option String
  description : Option String
  discontinued : Option Bool
  cateId : Option Nat
  subCateId : Option Nat
deriving Repr, DecidableEq

/-- A category or sub-category lookup row. -/
structure CategoryRow where
  id : Nat
  name : String
deriving Repr, DecidableEq

/-- A product found missing in the comparison store
(`mssql_helper.py:2024-2031`). -/
structure MissingProduct where
  productId : Nat
  productUpc : String
  productDescription : String
  categoryName : String
  subcategoryName : String
  discontinued : Bool
deriving Repr, DecidableEq

/-- The WHERE clause built at `mssql_helper.py:1869-1891`: non-null
non-empty UPC, optional category/sub-category `IN` filters (absent filters
are passed as `[]`), and — unless `include_discontinued` —
`(Discontinued = 0 OR Discontinued IS NULL)`. -/
def compareRowFilter (categoryIds subcategoryIds : List Nat)
    (includeDiscontinued : Bool) (r : ProductRow) : Bool :=
  (r.upc.getD "" != "") &&
  (categoryIds.isEmpty ||
    (match r.cateId with
     | some c => categoryIds.contains c
     | none => false)) &&
  (subcategoryIds.isEmpty ||
    (match r.subCateId with
     | some s => subcategoryIds.contains s
     | none => false)) &&
  (includeDiscontinued || !(r.discontinued.getD false))

/-- The LEFT JOIN to a category/sub-category lookup table: the name of the
first row whose id matches, if any. -/
def catNameLookup (cats : List CategoryRow) (cid : Option Nat) : Option String :=
  cid.bind (fun c => (cats.find? (fun k => k.id == c)).map (fun k => k.name))

/-- One missing-product record (`mssql_helper.py:2024-2031`):
normalized UPC, `"Unknown"`/`"Uncategorized"`/`"None"` fallbacks, and
`bool(discontinued) if discontinued else False` for the flag. -/
def missingRecordOf (cats subcats : List CategoryRow) (r : ProductRow) : MissingProduct :=
  { productId := r.productId, productUpc := normUpc r.upc,
    productDescription := strOrDefault r.description "Unknown",
    categoryName := strOrDefault (catNameLookup cats r.cateId) "Uncategorized",
    subcategoryName := strOrDefault (catNameLookup subcats r.subCateId) "None",
    discontinued := r.discontinued.getD false }

/-- The body of the chunk loop of `compare_stores_sync`
(`mssql_helper.py:1923-2043`): skip an empty window (`continue`), count the
fetched products, skip the comparison when no valid UPC is in the chunk
(the count is already updated), otherwise probe the normalized UPCs
against the comparison catalog and record every product whose normalized
UPC is non-empty and absent. -/
def compareChunkStep (cats subcats : List CategoryRow) (target : List String)
    (elig : List ProductRow) (chunkSize : Nat)
    (st : List MissingProduct × Nat) (i : Nat) : List MissingProduct × Nat :=
  let wnd := windowOf elig chunkSize i
  if wnd.isEmpty then st
  else
    let chunkUpcs := wnd.filterMap (fun r =>
      if normUpc r.upc = "" then none else some (normUpc r.upc))
    let checked := st.2 + wnd.length
    if chunkUpcs.isEmpty then (st.1, checked)
    else
      let existing := probeExistence target chunkUpcs
      (st.1 ++ (wnd.filter (fun r =>
          normUpc r.upc != "" && decide (normUpc r.upc ∉ existing))).map
        (missingRecordOf cats subcats), checked)

/-- `compare_stores_sync` over snapshots (`mssql_helper.py:1839-2048`):
filter the primary catalog, plan chunks, and run the chunk loop.
Result: `(missing_products, total_checked)`. -/
def compare_stores_sync (rows : List ProductRow) (cats subcats : List CategoryRow)
    (target : List String) (categoryIds subcategoryIds : List Nat)
    (includeDiscontinued : Bool) (chunkSize : Nat) : List MissingProduct × Nat :=
  let elig := rows.filter (compareRowFilter categoryIds subcategoryIds includeDiscontinued)
  if elig.length = 0 then ([], 0)
  else
    (List.range (totalChunksOf elig.length chunkSize)).foldl
      (compareChunkStep cats subcats target elig chunkSize) ([], 0)

/-! ## General lemmas about the chunk planner and the slicer -/

/-- For positive totals the chunk count is the usual ceiling division
written with `(t-1)/c + 1`. -/
theorem totalChunksOf_pos_eq (t c : Nat) (hc : 0 < c) (ht : 0 < t) :
    totalChunksOf t c = (t - 1) / c + 1 := by
  unfold totalChunksOf
  have h1 : t + c - 1 = (t - 1) + c := by omega
  rw [h1, Nat.add_div_right _ hc]
  exact max_eq_right (Nat.le_add_left 1 _)

theorem totalChunksOf_zero (c : Nat) (hc : 0 < c) : totalChunksOf 0 c = 1 := by
  unfold totalChunksOf
  have h1 : (0 + c - 1) / c = 0 := Nat.div_eq_of_lt (by omega)
  rw [h1]
  exact max_eq_left (Nat.zero_le 1)

theorem sliceBatches_nil (n : Nat) (hn : 0 < n) :
    sliceBatches n ([] : List α) = [] := by
  unfold sliceBatches
  rw [List.length_nil, Nat.div_eq_of_lt (by omega)]
  rfl

theorem sliceBatches_cons (n : Nat) (hn : 0 < n) (l : List α) (hl : l ≠ []) :
    sliceBatches n l = l.take n :: sliceBatches n (l.drop n) := by
  unfold sliceBatches
  have hlen : 0 < l.length := List.length_pos.mpr hl
  have hnum : (l.length + n - 1) / n = ((l.drop n).length + n - 1) / n + 1 := by
    rw [List.length_drop]
    rcases le_or_lt l.length n with h | h
    · have h2 : l.length - n = 0 := by omega
      rw [h2, Nat.div_eq_of_lt (by omega : 0 + n - 1 < n)]
      exact Nat.div_eq_of_lt_le (by omega) (by omega)
    · have h1 : l.length + n - 1 = (l.length - 1) + n := by omega
      have h2 : l.length - n + n - 1 = l.length - 1 := by omega
      rw [h1, h2, Nat.add_div_right _ hn]
  rw [hnum, List.range_succ_eq_map, List.map_cons, List.map_map]
  congr 1
  · rw [Nat.zero_mul, List.drop_zero]
  · refine List.map_congr_left fun i _ => ?_
    show (l.drop (Nat.succ i * n)).take n = ((l.drop n).drop (i * n)).take n
    rw [List.drop_drop, Nat.succ_mul, Nat.add_comm (i * n) n]

theorem flatten_sliceBatches_fuel (n : Nat) (hn : 0 < n) :
    ∀ (fuel : Nat) (l : List α), l.length ≤ fuel →
      (sliceBatches n l).flatten = l := by
  intro fuel
  induction fuel with
  | zero =>
    intro l hl
    have h0 : l = [] := List.eq_nil_of_length_eq_zero (Nat.le_zero.mp hl)
    rw [h0, sliceBatches_nil n hn]
    rfl
  | succ m ih =>
    intro l hl
    by_cases h0 : l = []
    · rw [h0, sliceBatches_nil n hn]; rfl
    · rw [sliceBatches_cons n hn l h0, List.flatten_cons,
        ih (l.drop n) (by rw [List.length_drop]; omega),
        List.take_append_drop]

theorem flatten_sliceBatches (n : Nat) (hn : 0 < n) (l : List α) :
    (sliceBatches n l).flatten = l :=
  flatten_sliceBatches_fuel n hn l.length l (le_refl _)

theorem sliceBatches_length_le (n : Nat) (l : List α) (b : List α)
    (hb : b ∈ sliceBatches n l) : b.length ≤ n := by
  unfold sliceBatches at hb
  rcases List.mem_map.mp hb with ⟨i, _, hi⟩
  rw [← hi, List.length_take]
  exact min_le_left _ _

theorem mem_sliceBatches (n : Nat) (hn : 0 < n) (l : List α) (x : α) :
    (∃ b ∈ sliceBatches n l, x ∈ b) ↔ x ∈ l := by
  constructor
  · rintro ⟨b, hb, hx⟩
    rw [← flatten_sliceBatches n hn l]
    exact List.mem_flatten.mpr ⟨b, hb, hx⟩
  · intro hx
    rw [← flatten_sliceBatches n hn l] at hx
    exact List.mem_flatten.mp hx

theorem mem_foldl_union {α β : Type} [DecidableEq α] (f : List β → Finset α)
    (L : List (List β)) (init : Finset α) (x : α) :
    x ∈ L.foldl (fun acc b => acc ∪ f b) init ↔ x ∈ init ∨ ∃ b ∈ L, x ∈ f b := by
  induction L generalizing init with
  | nil => simp
  | cons b rest ih =>
    rw [List.foldl_cons, ih]
    simp [Finset.mem_union, or_assoc]

theorem mem_probeBatchQuery (target batch : List String) (x : String) :
    x ∈ probeBatchQuery target batch ↔ ∃ t ∈ target, t ∈ batch ∧ pyStrip t = x := by
  unfold probeBatchQuery
  simp only [List.mem_toFinset, List.mem_map, List.mem_filter]
  constructor
  · rintro ⟨t, ⟨ht, hc⟩, hs⟩
    exact ⟨t, ht, (List.elem_iff).mp hc, hs⟩
  · rintro ⟨t, ht, hb, hs⟩
    exact ⟨t, ⟨ht, (List.elem_iff).mpr hb⟩, hs⟩

theorem mem_probeExistence (target upcs : List String) (x : String) :
    x ∈ probeExistence target upcs ↔ ∃ t ∈ target, t ∈ upcs ∧ pyStrip t = x := by
  unfold probeExistence
  rw [mem_foldl_union]
  simp only [Finset.not_mem_empty, false_or]
  constructor
  · rintro ⟨b, hb, hx⟩
    rcases (mem_probeBatchQuery target b x).mp hx with ⟨t, ht, htb, hs⟩
    exact ⟨t, ht, (mem_sliceBatches MAX_PARAMS_PER_QUERY (by decide) upcs t).mp
      ⟨b, hb, htb⟩, hs⟩
  · rintro ⟨t, ht, hu, hs⟩
    rcases (mem_sliceBatches MAX_PARAMS_PER_QUERY (by decide) upcs t).mpr hu with
      ⟨b, hb, htb⟩
    exact ⟨b, hb, (mem_probeBatchQuery target b x).mpr ⟨t, ht, htb, hs⟩⟩

/-! ## C1 -/

/-- C1: chunk planning covers the table exactly once.  For every
`totalRecords ≥ 0` and `chunkSize > 0` the audit computes
`totalChunks = ceil(totalRecords/chunkSize)` with minimum 1 (characterised
here by: at least 1; exactly 1 at zero records; `totalRecords` fits in
`totalChunks` windows; one fewer window would not suffice), the per-chunk
row-number windows `(i*chunkSize, i*chunkSize + chunkSize]` are pairwise
disjoint, and every 1-based row number in `[1, totalRecords]` lies in
exactly one planned window, so no row is skipped or double-counted. -/
theorem chunk_planning_covers_exactly_once (t c : Nat) (hc : 0 < c) :
    1 ≤ totalChunksOf t c ∧
    (t = 0 → totalChunksOf t c = 1) ∧
    t ≤ totalChunksOf t c * c ∧
    (0 < t → (totalChunksOf t c - 1) * c < t) ∧
    (∀ i j r, inWindow i c r → inWindow j c r → i = j) ∧
    (∀ r, 1 ≤ r → r ≤ t → ∃ i, i < totalChunksOf t c ∧ inWindow i c r) := by
  refine ⟨le_max_left 1 _, fun ht => ht ▸ totalChunksOf_zero c hc, ?_, ?_, ?_, ?_⟩
  · rcases Nat.eq_zero_or_pos t with ht | ht
    · simp [ht]
    · rw [totalChunksOf_pos_eq t c hc ht]
      have hdm := Nat.div_add_mod (t - 1) c
      have hlt : (t - 1) % c < c := Nat.mod_lt _ hc
      have hmul : ((t - 1) / c + 1) * c = (t - 1) / c * c + c := by ring
      rw [hmul]
      have : c * ((t - 1) / c) = (t - 1) / c * c := Nat.mul_comm _ _
      omega
  · intro ht
    rw [totalChunksOf_pos_eq t c hc ht]
    have h1 : (t - 1) / c * c ≤ t - 1 := Nat.div_mul_le_self _ _
    have h2 : (t - 1) / c + 1 - 1 = (t - 1) / c := Nat.add_sub_cancel _ _
    rw [h2]
    exact lt_of_le_of_lt h1 (Nat.sub_lt ht Nat.one_pos)
  · intro i j r hi hj
    unfold inWindow at hi hj
    rcases Nat.lt_trichotomy i j with h | h | h
    · exfalso
      have : (i + 1) * c ≤ j * c := Nat.mul_le_mul_right c h
      have h2 : (i + 1) * c = i * c + c := by ring
      omega
    · exact h
    · exfalso
      have : (j + 1) * c ≤ i * c := Nat.mul_le_mul_right c h
      have h2 : (j + 1) * c = j * c + c := by ring
      omega
  · intro r hr1 hrt
    have ht : 0 < t := lt_of_lt_of_le hr1 hrt
    refine ⟨(r - 1) / c, ?_, ?_, ?_⟩
    · rw [totalChunksOf_pos_eq t c hc ht]
      have := Nat.div_le_div_right (c := c) (show r - 1 ≤ t - 1 by omega)
      omega
    · have h1 : (r - 1) / c * c ≤ r - 1 := Nat.div_mul_le_self _ _
      omega
    · have hdm := Nat.div_add_mod (r - 1) c
      have hlt : (r - 1) % c < c := Nat.mod_lt _ hc
      have : c * ((r - 1) / c) = (r - 1) / c * c := Nat.mul_comm _ _
      omega

/-- Witness for C1: the end-to-end scenario of the spec,
`totalRecords = 12000`, `chunkSize = 5000` (3 chunks). -/
theorem chunk_planning_covers_exactly_once_witness :
    0 < 5000 ∧
    (1 ≤ totalChunksOf 12000 5000 ∧
     (12000 = 0 → totalChunksOf 12000 5000 = 1) ∧
     12000 ≤ totalChunksOf 12000 5000 * 5000 ∧
     (0 < 12000 → (totalChunksOf 12000 5000 - 1) * 5000 < 12000) ∧
     (∀ i j r, inWindow i 5000 r → inWindow j 5000 r → i = j) ∧
     (∀ r, 1 ≤ r → r ≤ 12000 →
        ∃ i, i < totalChunksOf 12000 5000 ∧ inWindow i 5000 r)) :=
  ⟨by decide, chunk_planning_covers_exactly_once 12000 5000 (by decide)⟩

/-! ## C3 -/

/-- C3: existence probing is batching-invariant.  For any target catalog
snapshot and any input UPC list, the batched probe — mechanical slices of
at most `MAX_PARAMS_PER_QUERY = 2000`, one membership query per slice,
results unioned — returns exactly the set a single unbounded membership
query over the whole list would return; every slice respects the 2000
ceiling, and the slices reassemble the input list exactly (no UPC dropped
or duplicated across batch boundaries). -/
theorem existence_probe_batching_invariant (target upcs : List String) :
    probeExistence target upcs = probeExistenceUnbounded target upcs ∧
    (∀ b ∈ sliceBatches MAX_PARAMS_PER_QUERY upcs, b.length ≤ MAX_PARAMS_PER_QUERY) ∧
    (sliceBatches MAX_PARAMS_PER_QUERY upcs).flatten = upcs := by
  refine ⟨?_, fun b hb => sliceBatches_length_le _ _ b hb,
    flatten_sliceBatches MAX_PARAMS_PER_QUERY (by decide) upcs⟩
  ext x
  rw [mem_probeExistence]
  unfold probeExistenceUnbounded
  rw [mem_probeBatchQuery]

/-- Witness for C3: a concrete probe, with a slice membership instantiating
the bounded-slice-size conjunct. -/
theorem existence_probe_batching_invariant_witness :
    probeExistence ["100", "200"] ["100", "300"] =
      probeExistenceUnbounded ["100", "200"] ["100", "300"] ∧
    (["100", "300"] : List String).length ≤ MAX_PARAMS_PER_QUERY :=
  ⟨(existence_probe_batching_invariant ["100", "200"] ["100", "300"]).1,
   (existence_probe_batching_invariant ["100", "200"] ["100", "300"]).2.1
     ["100", "300"] (by decide)⟩

/-! ## Lemmas about the cross-database chunk processing -/

theorem filterMap_eq_map_of_some {α β : Type} {f : α → Option β} {g : α → β}
    {l : List α} (h : ∀ x ∈ l, f x = some (g x)) : l.filterMap f = l.map g := by
  induction l with
  | nil => rfl
  | cons a rest ih =>
    rw [List.filterMap_cons, h a (List.mem_cons_self a rest), List.map_cons,
      ih (fun x hx => h x (List.mem_cons_of_mem a hx))]

theorem recordsMapLast_isSome (wnd : List DetailRow) (u : String)
    (hu : u ∈ crossDbChunkUpcs wnd) : (recordsMapLast wnd u).isSome := by
  unfold crossDbChunkUpcs at hu
  rcases List.mem_filterMap.mp hu with ⟨r, hr, hru⟩
  have hnu : normUpc r.upc = u := by
    by_cases h0 : normUpc r.upc = ""
    · rw [if_pos h0] at hru; exact absurd hru (by simp)
    · rw [if_neg h0] at hru; exact Option.some_injective _ hru
  have hmem : r ∈ wnd.filter (fun r => normUpc r.upc == u) :=
    List.mem_filter.mpr ⟨hr, by rw [hnu]; exact beq_self_eq_true u⟩
  unfold recordsMapLast
  rw [List.getLast?_isSome]
  exact List.ne_nil_of_mem hmem

theorem crossDbChunk_filterMap_map_upc (tableName : String) (wnd : List DetailRow)
    (l : List String) (h : ∀ u ∈ l, (recordsMapLast wnd u).isSome) :
    (l.filterMap (fun u => (recordsMapLast wnd u).map (fun r =>
      ({ tableName := tableName, primaryKey := r.pk, upc := u,
         productId := r.productId,
         description := descOrUnknown r.description } : OrphanRecord)))).map
      (fun rec => rec.upc) = l := by
  induction l with
  | nil => rfl
  | cons u rest ih =>
    rcases Option.isSome_iff_exists.mp (h u (List.mem_cons_self u rest)) with ⟨r, hr⟩
    rw [List.filterMap_cons, hr]
    simp only [Option.map_some']
    rw [List.map_cons, ih (fun x hx => h x (List.mem_cons_of_mem u hx))]

theorem crossDbChunkOrphans_upcs (tableName : String) (wnd : List DetailRow)
    (target : List String) :
    (crossDbChunkOrphans tableName wnd target).map (fun rec => rec.upc) =
      (crossDbChunkUpcs wnd).filter
        (fun u => decide (u ∉ probeExistence target (crossDbChunkUpcs wnd))) := by
  unfold crossDbChunkOrphans
  exact crossDbChunk_filterMap_map_upc tableName wnd _
    (fun u hu => recordsMapLast_isSome wnd u (List.mem_of_mem_filter hu))

/-! ## C2 -/

/-- C2: orphan classification is the exact set complement.  For any window
of source rows and any target catalog snapshot, the set of UPCs of the
orphan records produced for the chunk equals the chunk's input UPC set
minus the set returned by the existence probe, and every candidate UPC of
the chunk is classified into exactly one of orphan / not-orphan. -/
theorem orphan_classification_is_set_complement (tableName : String)
    (wnd : List DetailRow) (target : List String) :
    ((crossDbChunkOrphans tableName wnd target).map (fun rec => rec.upc)).toFinset =
      (crossDbChunkUpcs wnd).toFinset \ probeExistence target (crossDbChunkUpcs wnd) ∧
    (∀ u ∈ crossDbChunkUpcs wnd,
      (u ∈ probeExistence target (crossDbChunkUpcs wnd) ∧
        u ∉ (crossDbChunkOrphans tableName wnd target).map (fun rec => rec.upc)) ∨
      (u ∉ probeExistence target (crossDbChunkUpcs wnd) ∧
        u ∈ (crossDbChunkOrphans tableName wnd target).map (fun rec => rec.upc))) := by
  rw [crossDbChunkOrphans_upcs]
  constructor
  · ext x
    simp only [List.mem_toFinset, Finset.mem_sdiff, List.mem_filter,
      decide_eq_true_eq]
  · intro u hu
    by_cases hex : u ∈ probeExistence target (crossDbChunkUpcs wnd)
    · left
      refine ⟨hex, fun hmem => ?_⟩
      rcases List.mem_filter.mp hmem with ⟨_, hdec⟩
      exact (of_decide_eq_true hdec) hex
    · right
      exact ⟨hex, List.mem_filter.mpr ⟨hu, decide_eq_true hex⟩⟩

/-- Witness for C2: one row with UPC `"A"`, target catalog containing only
`"B"`; the second conjunct instantiated at `"A"`. -/
theorem orphan_classification_is_set_complement_witness :
    (((crossDbChunkOrphans "InvoicesDetails_tbl"
        [{ pk := 1, productId := none, description := none, upc := some "A" }]
        ["B"]).map (fun rec => rec.upc)).toFinset =
      (crossDbChunkUpcs
        [{ pk := 1, productId := none, description := none, upc := some "A" }]).toFinset \
        probeExistence ["B"] (crossDbChunkUpcs
          [{ pk := 1, productId := none, description := none, upc := some "A" }])) ∧
    (("A" ∈ probeExistence ["B"] (crossDbChunkUpcs
        [{ pk := 1, productId := none, description := none, upc := some "A" }]) ∧
      "A" ∉ (crossDbChunkOrphans "InvoicesDetails_tbl"
        [{ pk := 1, productId := none, description := none, upc := some "A" }]
        ["B"]).map (fun rec => rec.upc)) ∨
     ("A" ∉ probeExistence ["B"] (crossDbChunkUpcs
        [{ pk := 1, productId := none, description := none, upc := some "A" }]) ∧
      "A" ∈ (crossDbChunkOrphans "InvoicesDetails_tbl"
        [{ pk := 1, productId := none, description := none, upc := some "A" }]
        ["B"]).map (fun rec => rec.upc))) :=
  ⟨(orphan_classification_is_set_complement "InvoicesDetails_tbl"
      [{ pk := 1, productId := none, description := none, upc := some "A" }] ["B"]).1,
   (orphan_classification_is_set_complement "InvoicesDetails_tbl"
      [{ pk := 1, productId := none, description := none, upc := some "A" }] ["B"]).2
     "A" (by decide)⟩

theorem crossDbChunk_filter_upc_replicate (tableName : String) (wnd : List DetailRow)
    (u : String) (r : DetailRow) (hlast : recordsMapLast wnd u = some r) :
    ∀ l : List String, (∀ v ∈ l, (recordsMapLast wnd v).isSome) →
      ((l.filterMap (fun v => (recordsMapLast wnd v).map (fun rr =>
          ({ tableName := tableName, primaryKey := rr.pk, upc := v,
             productId := rr.productId,
             description := descOrUnknown rr.description } : OrphanRecord)))).filter
        (fun rec => rec.upc == u))
      = List.replicate (l.count u)
          ({ tableName := tableName, primaryKey := r.pk, upc := u,
             productId := r.productId,
             description := descOrUnknown r.description } : OrphanRecord) := by
  intro l
  induction l with
  | nil => intro _; rfl
  | cons v rest ih =>
    intro h
    rcases Option.isSome_iff_exists.mp (h v (List.mem_cons_self v rest)) with ⟨rv, hrv⟩
    have ih' := ih (fun x hx => h x (List.mem_cons_of_mem v hx))
    rw [List.filterMap_cons, hrv]
    simp only [Option.map_some']
    by_cases hvu : v = u
    · subst hvu
      have hrr : rv = r := Option.some_inj.mp (hrv.symm.trans hlast)
      subst hrr
      simp [List.filter_cons, List.count_cons, List.replicate_succ, ih']
    · simp [List.filter_cons, List.count_cons, ih', hvu, Ne.symm hvu]

/-! ## C10 -/

/-- C10: in cross-database mode, when several rows of the same chunk carry
the same normalized orphaned UPC, one orphan record is appended per
occurrence, and every one of those records carries the primary key, product
id and description of the LAST such row of the chunk, because
`records_map` retains only the most recently seen row per UPC: the records
with UPC `u` are exactly `count(u)` copies of the record built from
`records_map[u]`, the last matching row. -/
theorem cross_db_duplicate_upcs_use_last_row (tableName : String)
    (wnd : List DetailRow) (target : List String) (u : String) (r : DetailRow)
    (hlast : recordsMapLast wnd u = some r)
    (horph : u ∉ probeExistence target (crossDbChunkUpcs wnd)) :
    (crossDbChunkOrphans tableName wnd target).filter (fun rec => rec.upc == u)
      = List.replicate ((crossDbChunkUpcs wnd).count u)
          ({ tableName := tableName, primaryKey := r.pk, upc := u,
             productId := r.productId,
             description := descOrUnknown r.description } : OrphanRecord) := by
  unfold crossDbChunkOrphans
  rw [crossDbChunk_filter_upc_replicate tableName wnd u r hlast _
    (fun v hv => recordsMapLast_isSome wnd v (List.mem_of_mem_filter hv))]
  congr 1
  exact List.count_filter (decide_eq_true horph)

/-- Witness for C10: two rows of one chunk share orphaned UPC `"X"`; both
emitted records carry the second row's pk `2`, product id `20` and
description `"B"`. -/
theorem cross_db_duplicate_upcs_use_last_row_witness :
    (crossDbChunkOrphans "InvoicesDetails_tbl"
        [{ pk := 1, productId := some 10, description := some "A", upc := some "X" },
         { pk := 2, productId := some 20, description := some "B", upc := some "X" }]
        []).filter (fun rec => rec.upc == "X")
      = List.replicate
          ((crossDbChunkUpcs
            [{ pk := 1, productId := some 10, description := some "A", upc := some "X" },
             { pk := 2, productId := some 20, description := some "B", upc := some "X" }]).count "X")
          ({ tableName := "InvoicesDetails_tbl", primaryKey := 2, upc := "X",
             productId := some 20, description := "B" } : OrphanRecord) :=
  cross_db_duplicate_upcs_use_last_row "InvoicesDetails_tbl"
    [{ pk := 1, productId := some 10, description := some "A", upc := some "X" },
     { pk := 2, productId := some 20, description := some "B", upc := some "X" }]
    [] "X"
    { pk := 2, productId := some 20, description := some "B", upc := some "X" }
    (by decide) (by decide)

/-! ## Lemmas for the mode-equivalence claim C5 -/

theorem mem_windowOf {l : List α} {cs i : Nat} {x : α} (h : x ∈ windowOf l cs i) :
    x ∈ l :=
  List.mem_of_mem_drop (List.mem_of_mem_take h)

theorem filter_key_singleton {key : DetailRow → String} :
    ∀ l : List DetailRow, (l.map key).Nodup → ∀ r ∈ l,
      l.filter (fun x => key x == key r) = [r] := by
  intro l
  induction l with
  | nil => intro _ r hr; cases hr
  | cons a rest ih =>
    intro hnd r hr
    rw [List.map_cons, List.nodup_cons] at hnd
    rcases List.mem_cons.mp hr with rfl | hr2
    · have hrest : rest.filter (fun x => key x == key r) = [] := by
        rw [List.filter_eq_nil_iff]
        intro x hx hbeq
        exact hnd.1 ((beq_iff_eq.mp hbeq) ▸ List.mem_map_of_mem key hx)
      simp [List.filter_cons, hrest]
    · have hne : (key a == key r) = false :=
        beq_eq_false_iff_ne.mpr
          (fun he => hnd.1 (he ▸ List.mem_map_of_mem key hr2))
      simp [List.filter_cons, hne, ih hnd.2 r hr2]

theorem crossDbChunkOrphans_def (tableName : String) (wnd : List DetailRow)
    (target : List String) :
    crossDbChunkOrphans tableName wnd target =
      ((crossDbChunkUpcs wnd).filter
        (fun u => decide (u ∉ probeExistence target (crossDbChunkUpcs wnd)))).filterMap
        (fun u => (recordsMapLast wnd u).map (fun r =>
          ({ tableName := tableName, primaryKey := r.pk, upc := u,
             productId := r.productId,
             description := descOrUnknown r.description } : OrphanRecord))) := rfl

/-- In a window whose rows all carry trimmed non-empty UPCs that are
pairwise distinct, and against a trimmed target catalog, the
cross-database chunk processing produces exactly the records of the
same-database chunk processing. -/
theorem cross_eq_same_chunk (tableName : String) (wnd : List DetailRow)
    (target : List String)
    (hT : ∀ t ∈ target, pyStrip t = t)
    (hW : ∀ r ∈ wnd, r.upc.getD "" ≠ "" ∧ pyStrip (r.upc.getD "") = r.upc.getD "")
    (hN : (wnd.map (fun r => r.upc.getD "")).Nodup) :
    crossDbChunkOrphans tableName wnd target = sameDbChunkOrphans tableName wnd target := by
  have hnorm : ∀ r ∈ wnd, normUpc r.upc = r.upc.getD "" := by
    intro r hr
    unfold normUpc
    rw [if_neg (hW r hr).1, (hW r hr).2]
  have hupcs : crossDbChunkUpcs wnd = wnd.map (fun r => r.upc.getD "") := by
    unfold crossDbChunkUpcs
    apply filterMap_eq_map_of_some
    intro r hr
    rw [hnorm r hr, if_neg (hW r hr).1]
  have hmemex : ∀ r ∈ wnd,
      (r.upc.getD "" ∈ probeExistence target (wnd.map (fun x => x.upc.getD "")) ↔
        r.upc.getD "" ∈ target) := by
    intro r hr
    rw [mem_probeExistence]
    constructor
    · rintro ⟨t, ht, _, hs⟩
      rw [hT t ht] at hs
      exact hs ▸ ht
    · intro ht
      exact ⟨r.upc.getD "", ht, List.mem_map_of_mem _ hr, hT _ ht⟩
  have hlast : ∀ r ∈ wnd, recordsMapLast wnd (r.upc.getD "") = some r := by
    intro r hr
    unfold recordsMapLast
    have hcong : wnd.filter (fun x => normUpc x.upc == r.upc.getD "") =
        wnd.filter (fun x => x.upc.getD "" == r.upc.getD "") :=
      List.filter_congr (fun x hx => by rw [hnorm x hx])
    rw [hcong, filter_key_singleton wnd hN r hr]
    rfl
  have hpred : ∀ r ∈ wnd,
      (decide (r.upc.getD "" ∉ probeExistence target (wnd.map (fun x => x.upc.getD "")))) =
        !(target.contains (r.upc.getD "")) := by
    intro r hr
    rw [show (decide (r.upc.getD "" ∉
          probeExistence target (wnd.map (fun x => x.upc.getD ""))))
        = !(decide (r.upc.getD "" ∈
          probeExistence target (wnd.map (fun x => x.upc.getD ""))))
      from by simp]
    rw [decide_eq_decide.mpr (hmemex r hr)]
    exact congrArg Bool.not (List.elem_eq_mem _ _).symm
  rw [crossDbChunkOrphans_def, hupcs, List.filter_map, List.filterMap_map]
  unfold sameDbChunkOrphans
  simp only [Function.comp_def]
  rw [List.filter_congr hpred]
  apply filterMap_eq_map_of_some
  intro r hr
  show ((recordsMapLast wnd (r.upc.getD "")).map _) = _
  rw [hlast r (List.mem_of_mem_filter hr)]
  rfl

theorem crossDbTableOrphans_def (tableName : String) (rows : List DetailRow)
    (target : List String) (chunkSize : Nat) :
    crossDbTableOrphans tableName rows target chunkSize =
      if (rows.filter eligRow).length = 0 then []
      else
        ((List.range (totalChunksOf (rows.filter eligRow).length chunkSize)).map
          (fun i => crossDbChunkOrphans tableName
            (windowOf (rows.filter eligRow) chunkSize i) target)).flatten := rfl

theorem sameDbTableOrphans_def (tableName : String) (rows : List DetailRow)
    (target : List String) (chunkSize : Nat) :
    sameDbTableOrphans tableName rows target chunkSize =
      if (rows.filter eligRow).length = 0 then []
      else
        ((List.range (totalChunksOf (rows.filter eligRow).length chunkSize)).map
          (fun i => sameDbChunkOrphans tableName
            (windowOf (rows.filter eligRow) chunkSize i) target)).flatten := rfl

theorem cross_eq_same_table (tableName : String) (rows : List DetailRow)
    (target : List String) (chunkSize : Nat)
    (hT : ∀ t ∈ target, pyStrip t = t)
    (hR : ∀ r ∈ rows, ∀ s, r.upc = some s → pyStrip s = s)
    (hN : ∀ i < totalChunksOf (rows.filter eligRow).length chunkSize,
      ((windowOf (rows.filter eligRow) chunkSize i).map
        (fun r => r.upc.getD "")).Nodup) :
    crossDbTableOrphans tableName rows target chunkSize =
      sameDbTableOrphans tableName rows target chunkSize := by
  rw [crossDbTableOrphans_def, sameDbTableOrphans_def]
  by_cases h0 : (rows.filter eligRow).length = 0
  · rw [if_pos h0, if_pos h0]
  · rw [if_neg h0, if_neg h0]
    congr 1
    apply List.map_congr_left
    intro i hi
    apply cross_eq_same_chunk tableName _ target hT
    · intro r hr
      have helig : r ∈ rows.filter eligRow := mem_windowOf hr
      rcases List.mem_filter.mp helig with ⟨hrow, helb⟩
      have hne : r.upc.getD "" ≠ "" := by
        unfold eligRow at helb
        exact bne_iff_ne.mp helb
      refine ⟨hne, ?_⟩
      cases hu : r.upc with
      | none => exact absurd (by rw [hu]; rfl) hne
      | some s => simpa using hR r hrow s hu
    · exact hN i (List.mem_range.mp hi)

theorem foldl_congr_mem {α β : Type} {l : List α} {f g : β → α → β}
    (h : ∀ st x, x ∈ l → f st x = g st x) :
    ∀ init : β, l.foldl f init = l.foldl g init := by
  induction l with
  | nil => intro _; rfl
  | cons a rest ih =>
    intro init
    rw [List.foldl_cons, List.foldl_cons, h init a (List.mem_cons_self a rest)]
    exact ih (fun st x hx => h st x (List.mem_cons_of_mem a hx)) _

/-! ## C5 -/

/-- C5 does not hold as stated: with identical table contents and identical
target catalog, the two modes can produce different orphan records.  Two
rows of the same chunk sharing the orphaned UPC `"X"` make same-database
mode report each row with its own primary key, while cross-database mode
reports the last row's primary key twice. -/
theorem cross_vs_same_counterexample :
    process_tables_cross_db
      [("InvoicesDetails_tbl",
        [{ pk := 1, productId := some 10, description := some "A", upc := some "X" },
         { pk := 2, productId := some 20, description := some "B", upc := some "X" }])]
      [] CHUNK_SIZE
    ≠ process_tables_same_db
      [("InvoicesDetails_tbl",
        [{ pk := 1, productId := some 10, description := some "A", upc := some "X" },
         { pk := 2, productId := some 20, description := some "B", upc := some "X" }])]
      [] CHUNK_SIZE := by
  decide

/-- C5 (amended): same-source and cross-source audit mode produce the same
orphan records (same UPC values, primary keys, product ids and
descriptions) and the same `tables_checked` count over the tables both
modes process, PROVIDED the stored UPC values of the detail rows and of
the target catalog are whitespace-trimmed and no two rows of the same
chunk of a table carry the same UPC value.  (Untrimmed values differ
through cross-mode normalization, and duplicated in-chunk UPCs hit the
`records_map` last-row behaviour of C10, as the counterexample shows.) -/
theorem cross_and_same_audit_agree (tables : List (String × List DetailRow))
    (target : List String) (chunkSize : Nat)
    (hT : ∀ t ∈ target, pyStrip t = t)
    (hR : ∀ tb ∈ tables, ∀ r ∈ tb.2, ∀ s, r.upc = some s → pyStrip s = s)
    (hN : ∀ tb ∈ tables,
      ∀ i < totalChunksOf (tb.2.filter eligRow).length chunkSize,
        ((windowOf (tb.2.filter eligRow) chunkSize i).map
          (fun r => r.upc.getD "")).Nodup) :
    process_tables_cross_db tables target chunkSize =
      process_tables_same_db tables target chunkSize := by
  unfold process_tables_cross_db process_tables_same_db
  apply foldl_congr_mem
  intro st tb htb
  rw [cross_eq_same_table tb.1 tb.2 target chunkSize hT (hR tb htb) (hN tb htb)]

/-- Witness for the amended C5: one table, two rows with distinct trimmed
UPCs, one of them present in the target catalog. -/
theorem cross_and_same_audit_agree_witness :
    process_tables_cross_db
      [("InvoicesDetails_tbl",
        [{ pk := 1, productId := some 10, description := some "A", upc := some "X" },
         { pk := 2, productId := some 20, description := some "B", upc := some "Y" }])]
      ["Y"] CHUNK_SIZE
    = process_tables_same_db
      [("InvoicesDetails_tbl",
        [{ pk := 1, productId := some 10, description := some "A", upc := some "X" },
         { pk := 2, productId := some 20, description := some "B", upc := some "Y" }])]
      ["Y"] CHUNK_SIZE :=
  cross_and_same_audit_agree
    [("InvoicesDetails_tbl",
      [{ pk := 1, productId := some 10, description := some "A", upc := some "X" },
       { pk := 2, productId := some 20, description := some "B", upc := some "Y" }])]
    ["Y"] CHUNK_SIZE
    (by decide)
    (by
      intro tb htb r hr s hs
      rw [List.mem_singleton] at htb
      subst htb
      rcases List.mem_cons.mp hr with rfl | hr2
      · injection hs with h
        subst h
        decide
      · rcases List.mem_cons.mp hr2 with rfl | hr3
        · injection hs with h
          subst h
          decide
        · cases hr3)
    (by decide)

/-! ## C4 -/

/-- C4 does not hold of the code: the `except pyodbc.Error` handler at
`mssql_helper.py:1090` (and `767`) catches EVERY query error, not only the
table-missing case.  Concretely: one table whose count query reports 6
eligible rows (2 chunks of 5); chunk 0's window query succeeds and yields
one orphan row, chunk 1's window query raises a non-table-missing
`pyodbc.Error` (`"timeout expired"`).  The audit then reports the table as
skipped, keeps the partial orphan list of chunk 0, does NOT count the
table as checked, and still returns `success = True` with `error = None`:
the query failure is silently swallowed and a partial result is returned,
where the claim requires it to surface in the final error state. -/
theorem audit_swallows_non_missing_table_error :
    audit_tables_same_db
      [("InvoicesDetails_tbl",
        { countResult := Except.ok 6,
          chunkRows := fun i =>
            if i = 0 then
              Except.ok
                [{ pk := 1, productId := some 10, description := some "A",
                   upc := some "X" }]
            else Except.error "timeout expired" })]
      [] 5
    = (true, none,
       [{ tableName := "InvoicesDetails_tbl", primaryKey := 1, upc := "X",
          productId := some 10, description := "A" }],
       0, ["InvoicesDetails_tbl"]) := by
  decide

/-! ## C7 -/

theorem foldl_append_singleton_eq_map {α β : Type} (f : α → β) (l : List α) :
    ∀ acc : List β, l.foldl (fun acc u => acc ++ [f u]) acc = acc ++ l.map f := by
  induction l with
  | nil => intro acc; rw [List.foldl_nil, List.map_nil, List.append_nil]
  | cons a rest ih =>
    intro acc
    rw [List.foldl_cons, ih, List.map_cons]
    simp [List.append_assoc]

/-- C7: per-row update isolation.  For every update list and every per-row
outcome (when the connection itself opens), the updater produces exactly
one result per input row (`len(results) == len(updates)`), returns
overall success, and the result at each position is determined solely by
that position's update and its own outcome: a failing row yields
`success = False` with the caught error message (non-null) and no applied
UPC, while every other row still reports its own independent result; a
succeeding row yields `success = True` with the applied UPC. -/
theorem update_results_per_row_isolated (updates : List UpdateSpec)
    (rowOutcome : UpdateSpec → Option String) :
    ((update_orphaned_upcs_sync updates none rowOutcome).2.2).length = updates.length ∧
    (update_orphaned_upcs_sync updates none rowOutcome).1 = true ∧
    (update_orphaned_upcs_sync updates none rowOutcome).2.1 = none ∧
    (∀ i : Nat, ((update_orphaned_upcs_sync updates none rowOutcome).2.2)[i]? =
      (updates[i]?).map (singleUpdateResult rowOutcome)) ∧
    (∀ u, rowOutcome u = none → singleUpdateResult rowOutcome u =
      { tableName := u.tableName, primaryKey := u.primaryKey, success := true,
        updatedUpc := some u.itemsTblUpc, error := none }) ∧
    (∀ u e, rowOutcome u = some e → singleUpdateResult rowOutcome u =
      { tableName := u.tableName, primaryKey := u.primaryKey, success := false,
        updatedUpc := none, error := some e }) := by
  have hres : (update_orphaned_upcs_sync updates none rowOutcome).2.2 =
      updates.map (singleUpdateResult rowOutcome) := by
    show updates.foldl (fun acc u => acc ++ [singleUpdateResult rowOutcome u]) [] = _
    rw [foldl_append_singleton_eq_map, List.nil_append]
  refine ⟨by rw [hres, List.length_map], rfl, rfl, ?_, ?_, ?_⟩
  · intro i
    rw [hres, List.getElem?_map]
  · intro u hu
    unfold singleUpdateResult
    rw [hu]
  · intro u e hu
    unfold singleUpdateResult
    rw [hu]

/-- Witness for C7: the spec's scenario — 10 updates where row 3 (primary
key 3) violates a constraint; the length and the per-position conjuncts
of the theorem applied at that input, plus the concrete evaluation: rows
1-2 and 4-10 succeed, row 3 fails with a non-null message. -/
theorem update_results_per_row_isolated_witness :
    ((update_orphaned_upcs_sync
        ((List.range 10).map (fun k =>
          { tableName := "InvoicesDetails_tbl", primaryKey := k + 1,
            itemsTblUpc := "012345" }))
        none
        (fun u => if u.primaryKey = 3 then some "table is read-only" else none)).2.2).length
      = ((List.range 10).map (fun k =>
          ({ tableName := "InvoicesDetails_tbl", primaryKey := k + 1,
             itemsTblUpc := "012345" } : UpdateSpec))).length ∧
    (((update_orphaned_upcs_sync
        ((List.range 10).map (fun k =>
          { tableName := "InvoicesDetails_tbl", primaryKey := k + 1,
            itemsTblUpc := "012345" }))
        none
        (fun u => if u.primaryKey = 3 then some "table is read-only" else none)).2.2).filter
      (fun r => r.success)).length = 9 ∧
    (((update_orphaned_upcs_sync
        ((List.range 10).map (fun k =>
          { tableName := "InvoicesDetails_tbl", primaryKey := k + 1,
            itemsTblUpc := "012345" }))
        none
        (fun u => if u.primaryKey = 3 then some "table is read-only" else none)).2.2)[2]?
      = some { tableName := "InvoicesDetails_tbl", primaryKey := 3, success := false,
               updatedUpc := none, error := some "table is read-only" }) :=
  ⟨(update_results_per_row_isolated
      ((List.range 10).map (fun k =>
        { tableName := "InvoicesDetails_tbl", primaryKey := k + 1,
          itemsTblUpc := "012345" }))
      (fun u => if u.primaryKey = 3 then some "table is read-only" else none)).1,
   by decide, by decide⟩

/-! ## C6 -/

/-- C6 does not hold of the code: when a whole sub-batch's call fails, the
statement `total_failed += len(batch)` sits INSIDE the per-row loop
(`main.py:1677-1685`), so `total_failed` grows by `len(batch)` once per
row — `len(batch)²` in total.  Concretely: 2 updates forming one
sub-batch whose connection-level operation fails.  Both rows are recorded
failed with the causal error (as the claim says), but the
`batch_complete` event reports the running total `total_failed = 4`,
while the results contain exactly 2 failed rows. -/
theorem batching_wrapper_inflates_total_failed :
    (update_with_batching_wrapper
        [{ tableName := "InvoicesDetails_tbl", primaryKey := 1, itemsTblUpc := "U1" },
         { tableName := "InvoicesDetails_tbl", primaryKey := 2, itemsTblUpc := "U2" }]
        (fun _ => some "connection lost") (fun _ => none)).2
      = [UpdateEvent.updatingBatch 1 1 2,
         UpdateEvent.batchComplete 1 1 0 2 0 4] ∧
    ((update_with_batching_wrapper
        [{ tableName := "InvoicesDetails_tbl", primaryKey := 1, itemsTblUpc := "U1" },
         { tableName := "InvoicesDetails_tbl", primaryKey := 2, itemsTblUpc := "U2" }]
        (fun _ => some "connection lost") (fun _ => none)).1.2.2.filter
      (fun r => !r.success)).length = 2 ∧
    (update_with_batching_wrapper
        [{ tableName := "InvoicesDetails_tbl", primaryKey := 1, itemsTblUpc := "U1" },
         { tableName := "InvoicesDetails_tbl", primaryKey := 2, itemsTblUpc := "U2" }]
        (fun _ => some "connection lost") (fun _ => none)).1.2.2
      = [{ tableName := "InvoicesDetails_tbl", primaryKey := 1, success := false,
           updatedUpc := none, error := some "connection lost" },
         { tableName := "InvoicesDetails_tbl", primaryKey := 2, success := false,
           updatedUpc := none, error := some "connection lost" }] := by
  refine ⟨by decide, by decide, by decide⟩

/-! ## Lemmas for the matcher claim C8 -/

theorem forall2_perm_map {α β : Type} {f g : List α → List β} :
    ∀ L : List (List α), (∀ b ∈ L, List.Perm (f b) (g b)) →
      List.Forall₂ List.Perm (L.map f) (L.map g) := by
  intro L
  induction L with
  | nil => intro _; exact List.Forall₂.nil
  | cons b rest ih =>
    intro h
    exact List.Forall₂.cons (h b (List.mem_cons_self b rest))
      (ih (fun x hx => h x (List.mem_cons_of_mem b hx)))

theorem foldl_append_eq_flatten {α β : Type} (g : α → List β) (L : List α) :
    ∀ acc : List β, L.foldl (fun ms b => ms ++ g b) acc = acc ++ (L.map g).flatten := by
  induction L with
  | nil => intro acc; simp
  | cons b rest ih =>
    intro acc
    rw [List.foldl_cons, ih]
    simp [List.append_assoc]

theorem filter_isNone_isSome_perm (batch : List OrphanRecord) :
    List.Perm
      (batch.filter (fun r => r.productId.isNone) ++
        batch.filter (fun r => r.productId.isSome)) batch := by
  have he : batch.filter (fun r => !(r.productId.isNone)) =
      batch.filter (fun r => r.productId.isSome) :=
    List.filter_congr (fun r _ => by rcases r.productId with _ | x <;> rfl)
  rw [← he]
  exact List.filter_append_perm _ batch

theorem filter_descUsable_perm (batch : List OrphanRecord) :
    List.Perm
      (batch.filter (fun r => !descUsable r) ++ batch.filter descUsable) batch := by
  have he : batch.filter (fun r => !(!descUsable r)) = batch.filter descUsable :=
    List.filter_congr (fun r _ => by rw [Bool.not_not])
  rw [← he]
  exact List.filter_append_perm _ batch

theorem pidDictGet_queryRows (catalog : List CatalogItem) (pids : List Nat)
    (pid : Nat) (h : pid ∈ pids) :
    pidDictGet (pidQueryRows catalog pids) pid = pidDictGet catalog pid := by
  unfold pidDictGet pidQueryRows
  rw [List.filter_filter]
  have hfe : catalog.filter
      (fun c => (c.productId == pid && upcTruthy c.productUpc) &&
        pids.contains c.productId) =
      catalog.filter (fun c => c.productId == pid && upcTruthy c.productUpc) := by
    apply List.filter_congr
    intro c _
    by_cases hc : c.productId = pid
    · have hcont : pids.contains pid = true := List.elem_iff.mpr h
      rw [hc]
      simp [hcont, h]
    · have hne : (c.productId == pid) = false := beq_eq_false_iff_ne.mpr hc
      simp [hne]
  rw [hfe]

theorem descDictGet_queryRows (catalog : List CatalogItem) (keys : List String)
    (d : String) (h : d ∈ keys) :
    descDictGet (descQueryRows catalog keys) d = descDictGet catalog d := by
  unfold descDictGet descQueryRows
  rw [List.filter_filter]
  have hfe : catalog.filter
      (fun c => (c.productDescription == some d && upcTruthy c.productUpc) &&
        (match c.productDescription with
         | some dd => keys.contains dd
         | none => false)) =
      catalog.filter (fun c => c.productDescription == some d && upcTruthy c.productUpc) := by
    apply List.filter_congr
    intro c _
    cases hd : c.productDescription with
    | none => simp
    | some dd =>
      by_cases hdd : dd = d
      · subst hdd
        have hcont : keys.contains dd = true := List.elem_iff.mpr h
        simp [hcont, h]
      · have hne : ((some dd == some d) : Bool) = false := by
          simp [hdd]
        simp [hne]
  rw [hfe]

theorem pid_batch_perm (catalog : List CatalogItem) (batch : List OrphanRecord) :
    List.Perm
      ((batch.filter (fun r => r.productId.isNone)).map noMatchNA ++
        (batch.filter (fun r => r.productId.isSome)).map
          (pidMatchEntry (pidQueryRows catalog
            ((batch.filter (fun r => r.productId.isSome)).filterMap
              (fun r => r.productId)))))
      (batch.map (pidMatchEntry catalog)) := by
  have h1 : (batch.filter (fun r => r.productId.isNone)).map noMatchNA =
      (batch.filter (fun r => r.productId.isNone)).map (pidMatchEntry catalog) := by
    apply List.map_congr_left
    intro r hr
    rcases List.mem_filter.mp hr with ⟨_, hnone⟩
    have h0 : r.productId = none := Option.isNone_iff_eq_none.mp hnone
    simp [pidMatchEntry, h0]
  have h2 : (batch.filter (fun r => r.productId.isSome)).map
      (pidMatchEntry (pidQueryRows catalog
        ((batch.filter (fun r => r.productId.isSome)).filterMap
          (fun r => r.productId)))) =
      (batch.filter (fun r => r.productId.isSome)).map (pidMatchEntry catalog) := by
    apply List.map_congr_left
    intro r hr
    rcases List.mem_filter.mp hr with ⟨_, hsome⟩
    rcases Option.isSome_iff_exists.mp hsome with ⟨pid, hpid⟩
    have hmem : pid ∈ (batch.filter (fun r => r.productId.isSome)).filterMap
        (fun r => r.productId) :=
      List.mem_filterMap.mpr ⟨r, hr, hpid⟩
    unfold pidMatchEntry
    rw [hpid]
    simp only [pidDictGet_queryRows catalog _ pid hmem]
  rw [h1, h2, ← List.map_append]
  exact (filter_isNone_isSome_perm batch).map _

theorem desc_batch_perm (catalog : List CatalogItem) (batch : List OrphanRecord) :
    List.Perm
      ((batch.filter (fun r => !descUsable r)).map noMatchNA ++
        (batch.filter descUsable).map
          (descMatchEntry (descQueryRows catalog
            ((batch.filter descUsable).map (fun r => r.description)))))
      (batch.map (descMatchEntry catalog)) := by
  have h1 : (batch.filter (fun r => !descUsable r)).map noMatchNA =
      (batch.filter (fun r => !descUsable r)).map (descMatchEntry catalog) := by
    apply List.map_congr_left
    intro r hr
    rcases List.mem_filter.mp hr with ⟨_, hnu⟩
    have h0 : descUsable r = false := by
      cases hu : descUsable r
      · rfl
      · simp [hu] at hnu
    unfold descMatchEntry
    rw [h0]
    rfl
  have h2 : (batch.filter descUsable).map
      (descMatchEntry (descQueryRows catalog
        ((batch.filter descUsable).map (fun r => r.description)))) =
      (batch.filter descUsable).map (descMatchEntry catalog) := by
    apply List.map_congr_left
    intro r hr
    rcases List.mem_filter.mp hr with ⟨_, hu⟩
    have hmem : r.description ∈ (batch.filter descUsable).map (fun r => r.description) :=
      List.mem_map_of_mem _ hr
    unfold descMatchEntry
    simp only [hu, descDictGet_queryRows catalog _ r.description hmem]
  rw [h1, h2, ← List.map_append]
  exact (filter_descUsable_perm batch).map _

theorem find_matches_pid_perm (records : List OrphanRecord)
    (catalog : List CatalogItem) :
    List.Perm (find_matches_by_product_id_sync records catalog)
      (records.map (pidMatchEntry catalog)) := by
  show ((sliceBatches BATCH_SIZE records).foldl
      (fun ms batch => ms ++
        ((batch.filter (fun r => r.productId.isNone)).map noMatchNA ++
          (batch.filter (fun r => r.productId.isSome)).map
            (pidMatchEntry (pidQueryRows catalog
              ((batch.filter (fun r => r.productId.isSome)).filterMap
                (fun r => r.productId)))))) []).Perm _
  rw [foldl_append_eq_flatten, List.nil_append]
  have hper := List.Perm.flatten_congr
    (forall2_perm_map (sliceBatches BATCH_SIZE records)
      (fun b _ => pid_batch_perm catalog b))
  refine hper.trans ?_
  rw [← List.map_flatten, flatten_sliceBatches BATCH_SIZE (by decide) records]

theorem find_matches_desc_perm (records : List OrphanRecord)
    (catalog : List CatalogItem) :
    List.Perm (find_matches_by_description_sync records catalog)
      (records.map (descMatchEntry catalog)) := by
  show ((sliceBatches BATCH_SIZE records).foldl
      (fun ms batch => ms ++
        ((batch.filter (fun r => !descUsable r)).map noMatchNA ++
          (batch.filter descUsable).map
            (descMatchEntry (descQueryRows catalog
              ((batch.filter descUsable).map (fun r => r.description)))))) []).Perm _
  rw [foldl_append_eq_flatten, List.nil_append]
  have hper := List.Perm.flatten_congr
    (forall2_perm_map (sliceBatches BATCH_SIZE records)
      (fun b _ => desc_batch_perm catalog b))
  refine hper.trans ?_
  rw [← List.map_flatten, flatten_sliceBatches BATCH_SIZE (by decide) records]

theorem mem_descQueriedKeys (records : List OrphanRecord) (x : String)
    (hx : x ∈ descQueriedKeys records) : x ≠ "" ∧ x ≠ "Unknown" := by
  unfold descQueriedKeys at hx
  rcases List.mem_flatten.mp hx with ⟨ks, hks, hxk⟩
  rcases List.mem_map.mp hks with ⟨batch, _, hb⟩
  rw [← hb] at hxk
  rcases List.mem_map.mp hxk with ⟨r, hrf, hrd⟩
  rcases List.mem_filter.mp hrf with ⟨_, hu⟩
  unfold descUsable at hu
  constructor
  · intro he
    rw [← hrd] at he
    rw [he] at hu
    simp at hu
  · intro he
    rw [← hrd] at he
    rw [he] at hu
    simp at hu

/-! ## C8 -/

/-- C8: matcher fallback for unusable keys.  Every input orphan record
yields exactly one `ReconciliationMatch` entry — each strategy's output is
a permutation of one entry per input record and has the input's length.  A
record with a null linked product id resolves under the product-id
strategy to `match_found = False`, `match_field_value = "N/A"` regardless
of catalog contents; a record whose description is empty or the
`"Unknown"` sentinel resolves the same way under the description
strategy, and such descriptions are never part of the keys sent to the
catalog query. -/
theorem matcher_fallback_unusable_keys (records : List OrphanRecord)
    (catalog : List CatalogItem) :
    List.Perm (find_matches_by_product_id_sync records catalog)
      (records.map (pidMatchEntry catalog)) ∧
    (find_matches_by_product_id_sync records catalog).length = records.length ∧
    (∀ r, r.productId = none → pidMatchEntry catalog r = noMatchNA r) ∧
    List.Perm (find_matches_by_description_sync records catalog)
      (records.map (descMatchEntry catalog)) ∧
    (find_matches_by_description_sync records catalog).length = records.length ∧
    (∀ r, r.description = "" ∨ r.description = "Unknown" →
      descMatchEntry catalog r = noMatchNA r) ∧
    (∀ x ∈ descQueriedKeys records, x ≠ "" ∧ x ≠ "Unknown") := by
  refine ⟨find_matches_pid_perm records catalog, ?_, ?_,
    find_matches_desc_perm records catalog, ?_, ?_,
    fun x hx => mem_descQueriedKeys records x hx⟩
  · rw [(find_matches_pid_perm records catalog).length_eq, List.length_map]
  · intro r h0
    simp [pidMatchEntry, h0]
  · rw [(find_matches_desc_perm records catalog).length_eq, List.length_map]
  · intro r h0
    have hu : descUsable r = false := by
      unfold descUsable
      rcases h0 with h0 | h0 <;> simp [h0]
    unfold descMatchEntry
    rw [hu]
    rfl

/-- Witness for C8: one record with both a null product id and the
`"Unknown"` sentinel description, against a non-empty catalog. -/
theorem matcher_fallback_unusable_keys_witness :
    pidMatchEntry
      [{ productId := 5, productDescription := some "Widget", productUpc := some "012345" }]
      { tableName := "InvoicesDetails_tbl", primaryKey := 1, upc := "X", productId := none, description := "Unknown" }
      = noMatchNA
        { tableName := "InvoicesDetails_tbl", primaryKey := 1, upc := "X", productId := none, description := "Unknown" } ∧
    descMatchEntry
      [{ productId := 5, productDescription := some "Widget", productUpc := some "012345" }]
      { tableName := "InvoicesDetails_tbl", primaryKey := 1, upc := "X", productId := none, description := "Unknown" }
      = noMatchNA
        { tableName := "InvoicesDetails_tbl", primaryKey := 1, upc := "X", productId := none, description := "Unknown" } ∧
    (find_matches_by_product_id_sync
      [{ tableName := "InvoicesDetails_tbl", primaryKey := 1, upc := "X", productId := none, description := "Unknown" }]
      [{ productId := 5, productDescription := some "Widget", productUpc := some "012345" }]).length
      = ([{ tableName := "InvoicesDetails_tbl", primaryKey := 1, upc := "X", productId := none, description := "Unknown" }] : List OrphanRecord).length :=
  ⟨(matcher_fallback_unusable_keys
      [{ tableName := "InvoicesDetails_tbl", primaryKey := 1, upc := "X", productId := none, description := "Unknown" }]
      [{ productId := 5, productDescription := some "Widget", productUpc := some "012345" }]).2.2.1
    { tableName := "InvoicesDetails_tbl", primaryKey := 1, upc := "X", productId := none, description := "Unknown" } rfl,
   (matcher_fallback_unusable_keys
      [{ tableName := "InvoicesDetails_tbl", primaryKey := 1, upc := "X", productId := none, description := "Unknown" }]
      [{ productId := 5, productDescription := some "Widget", productUpc := some "012345" }]).2.2.2.2.2.1
    { tableName := "InvoicesDetails_tbl", primaryKey := 1, upc := "X", productId := none, description := "Unknown" } (Or.inr rfl),
   (matcher_fallback_unusable_keys
      [{ tableName := "InvoicesDetails_tbl", primaryKey := 1, upc := "X", productId := none, description := "Unknown" }]
      [{ productId := 5, productDescription := some "Widget", productUpc := some "012345" }]).2.1⟩

/-! ## C9 -/

theorem compareChunkStep_all_not_discontinued (cats subcats : List CategoryRow)
    (target : List String) (elig : List ProductRow) (chunkSize : Nat)
    (helig : ∀ r ∈ elig, r.discontinued.getD false = false) :
    ∀ (st : List MissingProduct × Nat) (i : Nat),
      st.1.all (fun m => !m.discontinued) = true →
      ((compareChunkStep cats subcats target elig chunkSize st i).1).all
        (fun m => !m.discontinued) = true := by
  intro st i hst
  unfold compareChunkStep
  by_cases hw : (windowOf elig chunkSize i).isEmpty
  · rw [if_pos hw]; exact hst
  · rw [if_neg hw]
    by_cases hcu : ((windowOf elig chunkSize i).filterMap (fun r =>
        if normUpc r.upc = "" then none else some (normUpc r.upc))).isEmpty
    · rw [if_pos hcu]; exact hst
    · rw [if_neg hcu]
      show (st.1 ++ _).all _ = true
      rw [List.all_append, Bool.and_eq_true]
      refine ⟨hst, ?_⟩
      rw [List.all_eq_true]
      intro m hm
      rcases List.mem_map.mp hm with ⟨r, hrf, hr⟩
      have hre : r ∈ elig := mem_windowOf (List.mem_of_mem_filter hrf)
      have hd : r.discontinued.getD false = false := helig r hre
      rw [← hr]
      simp [missingRecordOf, hd]

theorem foldl_compareChunkStep_all (cats subcats : List CategoryRow)
    (target : List String) (elig : List ProductRow) (chunkSize : Nat)
    (helig : ∀ r ∈ elig, r.discontinued.getD false = false) :
    ∀ (L : List Nat) (st : List MissingProduct × Nat),
      st.1.all (fun m => !m.discontinued) = true →
      ((L.foldl (compareChunkStep cats subcats target elig chunkSize) st).1).all
        (fun m => !m.discontinued) = true := by
  intro L
  induction L with
  | nil => intro st hst; exact hst
  | cons i rest ih =>
    intro st hst
    rw [List.foldl_cons]
    exact ih _ (compareChunkStep_all_not_discontinued cats subcats target elig
      chunkSize helig st i hst)

/-- C9: discontinued filtering in the cross-store diff.  With
`includeDiscontinued = False`, no product whose discontinued flag is true
appears in the missing-products result — every record carries
`discontinued = false` — for all catalog snapshots and filters, even when
the UPC is genuinely absent from the comparison store.  With
`includeDiscontinued = True` discontinued products are eligible: a
discontinued product whose UPC is absent from the comparison store is
reported missing (with its flag true). -/
theorem compare_discontinued_filtering :
    (∀ (rows : List ProductRow) (cats subcats : List CategoryRow)
       (target : List String) (categoryIds subcategoryIds : List Nat)
       (chunkSize : Nat),
      ((compare_stores_sync rows cats subcats target categoryIds subcategoryIds
        false chunkSize).1).all (fun m => !m.discontinued) = true) ∧
    (compare_stores_sync
        [{ productId := 1, upc := some "X", description := some "D", discontinued := some true, cateId := none, subCateId := none }]
        [] [] [] [] [] true CHUNK_SIZE).1
      = [{ productId := 1, productUpc := "X", productDescription := "D", categoryName := "Uncategorized", subcategoryName := "None", discontinued := true }] := by
  constructor
  · intro rows cats subcats target categoryIds subcategoryIds chunkSize
    unfold compare_stores_sync
    by_cases h0 : (rows.filter
        (compareRowFilter categoryIds subcategoryIds false)).length = 0
    · rw [if_pos h0]; rfl
    · rw [if_neg h0]
      apply foldl_compareChunkStep_all
      · intro r hr
        rcases List.mem_filter.mp hr with ⟨_, hf⟩
        unfold compareRowFilter at hf
        simp only [Bool.and_eq_true, Bool.or_eq_true] at hf
        rcases hf.2 with hf2 | hf2
        · cases hf2
        · cases hg : r.discontinued.getD false
          · rfl
          · rw [hg] at hf2; cases hf2
      · rfl
  · decide

end GlobalUPC
